import Mathlib

/-!
Shallow embedding of `augment_tools_core/file_cleaner.py` (class `FileCleaner`):
an escalating file deleter, directory sweepers, and a JSON-manifest sanitizer.

Filesystem, process and subprocess behaviour is environmental: each embedded
function takes an environment record whose fields answer exactly the queries the
Python code makes (does the path exist, what does the k-th `unlink` attempt
raise, does a forced command remove the file, ...).  Every function additionally
returns the trace of observable actions it performed (sleeps, unlink attempts,
process kills, shell commands, log lines), so that properties such as "no
escalation step is invoked" are statements about the trace.
-/

namespace FileCleaner

/-- Log messages emitted through print_info / print_success / print_warning /
print_error, abstracted from their literal formatting (console formatting is an
external collaborator).  String payloads carry the stringified exception. -/
inductive LogMsg where
  | attemptDelete
  | deleted
  | deleteFailedWarn
  | errDetail (msg : String)
  | forceModeRetry
  | canTryForceMode
  | deleteFailedErr (msg : String)
  | delayedDeleteOk
  | tryKillHolders
  | foundProcs (n : Nat)
  | procDetail (pid : Nat)
  | killedPid (pid : Nat)
  | cantKillPid (pid : Nat)
  | killThenDeleteOk
  | tryMethod (name : String)
  | methodOk (name : String)
  | methodFailed (name : String)
  | wait5Final
  | finalDeleteOk
  | finalDeleteFailed
  | finalErr (msg : String)
  | restartHint
  | forceDeleteOk
  | forceDeleteFailedU (msg : String)
  deriving DecidableEq, Repr

/-- Observable actions of the deleter: filesystem calls, sleeps, process
queries and kills, shell commands, and log lines.  `unlinkAttempt k ok` is the
k-th `file_path.unlink()` call of the run (0 = the direct attempt). -/
inductive Action where
  | unlinkAttempt (k : Nat) (ok : Bool)
  | sleep (secs : Nat)
  | findProcesses (found : Nat)
  | killProcess (pid : Nat)
  | runCommand (name : String)
  | chmodCall (ok : Bool)
  | logInfo (m : LogMsg)
  | logSuccess (m : LogMsg)
  | logWarning (m : LogMsg)
  | logError (m : LogMsg)
  deriving DecidableEq, Repr

/-- Result of one `file_path.unlink()` call: success, an `OSError` (including
`PermissionError`) carrying `e.errno` (`none` when the errno attribute is
unset), or any other exception. -/
inductive UnlinkResult where
  | ok
  | errno (n : Option Nat) (msg : String)
  | exn (msg : String)
  deriving DecidableEq, Repr

/-- Environment oracle for one file's deletion: initial existence, the outcome
of each successive unlink attempt, the platform, the holder processes
discovered on Windows, whether killing a pid raises, and whether each forced
shell command raises or actually removes the file. -/
structure FileEnv where
  pathExists : Bool
  unlinkResult : Nat → UnlinkResult
  isWindows : Bool
  holders : List Nat
  killRaises : Nat → Bool
  cmdRaises : Nat → Bool
  cmdRemoves : Nat → Bool
  chmodRaises : Option String

/-- The three Windows forced-delete methods of `_windows_force_delete`, in
their registered priority order. -/
def windowsMethods : List String :=
  ["del", "PowerShell Remove-Item", "attrib + del"]

/-- The ladder loop of `_windows_force_delete`: try each method in order; a
method wins when the file no longer exists afterwards (the command's exit
status is ignored).  Returns whether some method won, plus the trace. -/
def wfdLoop (env : FileEnv) : List (Nat × String) → Bool × List Action
  | [] => (false, [])
  | (idx, name) :: rest =>
    if env.cmdRaises idx then
      let r := wfdLoop env rest
      (r.1, Action.logInfo (.tryMethod name) :: Action.logWarning (.methodFailed name) :: r.2)
    else if env.cmdRemoves idx then
      (true, [Action.logInfo (.tryMethod name), Action.runCommand name,
              Action.logSuccess (.methodOk name)])
    else
      let r := wfdLoop env rest
      (r.1, Action.logInfo (.tryMethod name) :: Action.runCommand name :: r.2)

/-- `_windows_force_delete`: the forced-command ladder, then — only if every
method left the file in place — a 5 second wait and one last unlink attempt
(the k-th of the run); its failure is reported with the last error and the
restart hint. -/
def windowsForceDelete (env : FileEnv) (k : Nat) : Bool × List Action :=
  match wfdLoop env windowsMethods.enum with
  | (true, tr) => (true, tr)
  | (false, tr) =>
    let pre := tr ++ [Action.logInfo .wait5Final, Action.sleep 5]
    match env.unlinkResult k with
    | .ok => (true, pre ++ [Action.unlinkAttempt k true, Action.logSuccess .finalDeleteOk])
    | .errno _ m =>
        (false, pre ++ [Action.unlinkAttempt k false, Action.logError .finalDeleteFailed,
                        Action.logError (.finalErr m), Action.logInfo .restartHint])
    | .exn m =>
        (false, pre ++ [Action.unlinkAttempt k false, Action.logError .finalDeleteFailed,
                        Action.logError (.finalErr m), Action.logInfo .restartHint])

/-- `_unix_force_delete`: a single `os.chmod(path, 0o777)` followed by one
unlink attempt (the k-th of the run); any exception from either call is
reported as forced-delete failure.  There is no further retry, sleep or hint
on this path. -/
def unixForceDelete (env : FileEnv) (k : Nat) : Bool × List Action :=
  match env.chmodRaises with
  | some m => (false, [Action.chmodCall false, Action.logError (.forceDeleteFailedU m)])
  | none =>
    match env.unlinkResult k with
    | .ok => (true, [Action.chmodCall true, Action.unlinkAttempt k true,
                     Action.logSuccess .forceDeleteOk])
    | .errno _ m => (false, [Action.chmodCall true, Action.unlinkAttempt k false,
                             Action.logError (.forceDeleteFailedU m)])
    | .exn m => (false, [Action.chmodCall true, Action.unlinkAttempt k false,
                         Action.logError (.forceDeleteFailedU m)])

/-- `_kill_occupying_processes`: kill each holder pid; a failure to kill one is
logged as a warning and does not stop the others. -/
def killOccupying (env : FileEnv) (pids : List Nat) : List Action :=
  (pids.map (fun pid =>
    if env.killRaises pid then [Action.logWarning (.cantKillPid pid)]
    else [Action.killProcess pid, Action.logInfo (.killedPid pid)])).flatten

/-- `_force_delete_file`: sleep 1 then delayed retry (attempt 1); on Windows,
discover holders, kill them, sleep 2 and retry (attempt 2); finally dispatch to
the platform's forced-delete routine with the next attempt index. -/
def forceDeleteFile (env : FileEnv) : Bool × List Action :=
  match env.unlinkResult 1 with
  | .ok => (true, [Action.sleep 1, Action.unlinkAttempt 1 true,
                   Action.logSuccess .delayedDeleteOk])
  | _ =>
    let pre := [Action.sleep 1, Action.unlinkAttempt 1 false, Action.logInfo .tryKillHolders]
    if env.isWindows then
      if env.holders.isEmpty then
        let r := windowsForceDelete env 2
        (r.1, pre ++ [Action.findProcesses 0] ++ r.2)
      else
        let killTr :=
          Action.findProcesses env.holders.length ::
          Action.logInfo (.foundProcs env.holders.length) ::
          (env.holders.map (fun pid => Action.logInfo (.procDetail pid)) ++
           killOccupying env env.holders ++ [Action.sleep 2])
        match env.unlinkResult 2 with
        | .ok => (true, pre ++ killTr ++ [Action.unlinkAttempt 2 true,
                                          Action.logSuccess .killThenDeleteOk])
        | _ =>
          let r := windowsForceDelete env 3
          (r.1, pre ++ killTr ++ [Action.unlinkAttempt 2 false] ++ r.2)
    else
      let r := unixForceDelete env 2
      (r.1, pre ++ r.2)

/-- `safe_delete_file`: early return on a nonexistent path; otherwise a direct
unlink (attempt 0), with escalation only on errno 13/32 when force_mode is set;
any other error aborts immediately. -/
def safe_delete_file (env : FileEnv) (force_mode : Bool) : Bool × List Action :=
  if env.pathExists = false then (false, [])
  else
    let pre := [Action.logInfo .attemptDelete]
    match env.unlinkResult 0 with
    | .ok => (true, pre ++ [Action.unlinkAttempt 0 true, Action.logSuccess .deleted])
    | .errno n m =>
      if n = some 13 ∨ n = some 32 then
        let w := pre ++ [Action.unlinkAttempt 0 false, Action.logWarning .deleteFailedWarn,
                         Action.logWarning (.errDetail m)]
        if force_mode then
          let r := forceDeleteFile env
          (r.1, w ++ [Action.logInfo .forceModeRetry] ++ r.2)
        else
          (false, w ++ [Action.logInfo .canTryForceMode])
      else
        (false, pre ++ [Action.unlinkAttempt 0 false, Action.logError (.deleteFailedErr m)])
    | .exn m => (false, pre ++ [Action.unlinkAttempt 0 false, Action.logError (.deleteFailedErr m)])

/-- An escalation step of the ladder: any sleep, retry (unlink attempt after
the direct one), process discovery or kill, forced command, or chmod. -/
def isEscalationStep : Action → Bool
  | .sleep _ => true
  | .findProcesses _ => true
  | .killProcess _ => true
  | .runCommand _ => true
  | .chmodCall _ => true
  | .unlinkAttempt k _ => decide (1 ≤ k)
  | _ => false

/-- A failure report: a warning- or error-level log line. -/
def isFailureReport : Action → Bool
  | .logWarning _ => true
  | .logError _ => true
  | _ => false

/-! ### Manifest sanitizer (`_clean_extensions_json`) -/

/-- Parsed JSON values, as produced by `json.load`. -/
inductive JsonVal where
  | null
  | bool (b : Bool)
  | num (n : Int)
  | str (s : String)
  | arr (elems : List JsonVal)
  | obj (fields : List (String × JsonVal))

/-- Does `needle` occur at the start of `hay`? -/
def startsWithChars : List Char → List Char → Bool
  | [], _ => true
  | _ :: _, [] => false
  | a :: as, b :: bs => a = b && startsWithChars as bs

/-- Does `needle` occur contiguously anywhere in `hay`? -/
def containsChars (needle : List Char) : List Char → Bool
  | [] => needle.isEmpty
  | c :: rest => startsWithChars needle (c :: rest) || containsChars needle rest

/-- Substring test on strings (Python's `needle in hay`). -/
def containsSub (needle hay : String) : Bool :=
  containsChars needle.toList hay.toList

/-- Python's `str.lower()`, character-wise. -/
def pyLower (s : String) : String :=
  ⟨s.toList.map Char.toLower⟩

mutual

/-- Models the library call `json.dumps(item, ensure_ascii=False)` with its
default separators; string escaping is not modelled (the serialization is only
consumed by the case-insensitive substring test). -/
def dumps : JsonVal → String
  | .null => "null"
  | .bool b => if b then "true" else "false"
  | .num n => toString n
  | .str s => "\"" ++ s ++ "\""
  | .arr xs => "[" ++ dumpsArr xs ++ "]"
  | .obj fs => "\x7b" ++ dumpsObj fs ++ "\x7d"

/-- Array elements of `dumps`, comma-separated. -/
def dumpsArr : List JsonVal → String
  | [] => ""
  | [x] => dumps x
  | x :: y :: rest => dumps x ++ ", " ++ dumpsArr (y :: rest)

/-- Object fields of `dumps`, comma-separated. -/
def dumpsObj : List (String × JsonVal) → String
  | [] => ""
  | [(k, v)] => "\"" ++ k ++ "\": " ++ dumps v
  | (k, v) :: y :: rest => "\"" ++ k ++ "\": " ++ dumps v ++ ", " ++ dumpsObj (y :: rest)

end

mutual

/-- Models the library call `repr()` on a parsed JSON value, as used by
Python's `str()` on list elements (strings get quotes). -/
def pyRepr : JsonVal → String
  | .null => "None"
  | .bool b => if b then "True" else "False"
  | .num n => toString n
  | .str s => "\x27" ++ s ++ "\x27"
  | .arr xs => "[" ++ pyReprArr xs ++ "]"
  | .obj fs => "\x7b" ++ pyReprObj fs ++ "\x7d"

/-- List elements of `pyRepr`, comma-separated. -/
def pyReprArr : List JsonVal → String
  | [] => ""
  | [x] => pyRepr x
  | x :: y :: rest => pyRepr x ++ ", " ++ pyReprArr (y :: rest)

/-- Dict fields of `pyRepr`, comma-separated. -/
def pyReprObj : List (String × JsonVal) → String
  | [] => ""
  | [(k, v)] => "\x27" ++ k ++ "\x27: " ++ pyRepr v
  | (k, v) :: y :: rest => "\x27" ++ k ++ "\x27: " ++ pyRepr v ++ ", " ++ pyReprObj (y :: rest)

end

/-- Models the library call `str()` on a parsed JSON value (only reached for
non-dict items in the code). -/
def pyStr : JsonVal → String
  | .str s => s
  | v => pyRepr v

/-- The removal marker predicate of `_clean_extensions_json`: for dict records,
`'augment' in json.dumps(item, ensure_ascii=False).lower()`; for any other
record, `'augment' in str(item).lower()`. -/
def isMarkedItem (item : JsonVal) : Bool :=
  match item with
  | .obj _ => containsSub "augment" (pyLower (dumps item))
  | _ => containsSub "augment" (pyLower (pyStr item))

/-- The record loop of `_clean_extensions_json`: append each record to
`filtered_data` or `removed_items` according to the marker predicate, in
iteration order. -/
def partitionLoop (items : List JsonVal) : List JsonVal × List JsonVal :=
  items.foldl
    (fun acc item =>
      if isMarkedItem item then (acc.1, acc.2 ++ [item]) else (acc.1 ++ [item], acc.2))
    ([], [])

/-- Environment for one `_clean_extensions_json` call: whether the backup
collaborator (`create_backup`) returns a path, and the parse of the manifest
(`none` models a `json.JSONDecodeError`). -/
structure ManifestEnv where
  backupSucceeds : Bool
  content : Option JsonVal

/-- Observable outcome of one `_clean_extensions_json` call: the returned
count, the list written back to the manifest file (`none` when the file was
not written), whether a backup file remains on disk after the call, and
whether the manifest was read at all. -/
structure ManifestResult where
  ret : Nat
  written : Option (List JsonVal)
  backupRemains : Bool
  readManifest : Bool

/-- `_clean_extensions_json`: create a backup (abort on failure), parse the
manifest, split a list manifest by the marker predicate; write back the kept
records only when something was removed, else delete the just-made backup; a
parse failure or a non-list manifest leaves both the manifest and the backup
in place.  The `force_mode` parameter is accepted and unused, as in the
code. -/
def clean_extensions_json (env : ManifestEnv) (force_mode : Bool) : ManifestResult :=
  if env.backupSucceeds = false then
    { ret := 0, written := none, backupRemains := false, readManifest := false }
  else
    match env.content with
    | none => { ret := 0, written := none, backupRemains := true, readManifest := true }
    | some v =>
      match v with
      | .arr items =>
        let p := partitionLoop items
        if p.2.isEmpty then
          { ret := 0, written := none, backupRemains := false, readManifest := true }
        else
          { ret := 1, written := some p.1, backupRemains := true, readManifest := true }
      | _ => { ret := 0, written := none, backupRemains := true, readManifest := true }

/-! ### Tree cleaners -/

/-- The fixed target filename set `TARGET_FILES`. -/
def TARGET_FILES : List String :=
  ["state.vscdb", "state.vscdb.backup"]

/-- One child entry of the workspace-storage root: whether it is a directory,
and the deletion environment of each target file inside it, in `TARGET_FILES`
order. -/
structure WsDir where
  is_dir : Bool
  fileEnvs : List FileEnv

/-- One event yielded by iterating `workspace_storage_path.iterdir()`: a child
entry, or the iteration itself raising (e.g. a permission error). -/
inductive WsEvent where
  | dirEntry (d : WsDir)
  | enumFail (msg : String)

/-- The inner loop of `_clean_workspace_storage` for one child entry: how many
target files were successfully deleted there (non-directories are skipped). -/
def processDir (d : WsDir) (force_mode : Bool) : Nat :=
  if d.is_dir then
    d.fileEnvs.foldl (fun acc e => if (safe_delete_file e force_mode).1 then acc + 1 else acc) 0
  else 0

/-- Observable outcome of `_clean_workspace_storage`: the returned total, the
number of target-file deletions that had already succeeded on disk when the
call returned, and the number of workspaces with at least one deletion. -/
structure WsResult where
  ret : Nat
  actuallyDeleted : Nat
  processed : Nat
  deriving DecidableEq, Repr

/-- The workspace loop: accumulate per-directory counts; an enumeration
failure aborts the loop and makes the call return 0, while the deletions
already performed stand. -/
def wsLoop (force_mode : Bool) : List WsEvent → Nat → Nat → WsResult
  | [], total, processed => ⟨total, total, processed⟩
  | .dirEntry d :: rest, total, processed =>
    let k := processDir d force_mode
    wsLoop force_mode rest (total + k) (if 0 < k then processed + 1 else processed)
  | .enumFail _ :: _, total, processed => ⟨0, total, processed⟩

/-- `_clean_workspace_storage`: nothing to do when the root does not exist;
otherwise run the workspace loop. -/
def clean_workspace_storage (exists0 : Bool) (events : List WsEvent) (force_mode : Bool) :
    WsResult :=
  if exists0 = false then ⟨0, 0, 0⟩ else wsLoop force_mode events 0 0

/-- Environment for `_clean_history_folder`: existence of the folder, whether
a plain `shutil.rmtree` raises and with what message, and whether the
`ignore_errors=True` sweep leaves entries behind (the code never consults
this). -/
structure RmtreeEnv where
  exists0 : Bool
  rmtreeRaises : Bool
  rmtreeMsg : String
  forceLeavesResidue : Bool
  deriving DecidableEq, Repr

/-- A `shutil.rmtree(path)` call without `ignore_errors`: may raise. -/
def rmtreeCall (raises : Bool) (msg : String) : Except String Unit :=
  if raises then Except.error msg else Except.ok ()

/-- `_clean_history_folder`: with force mode, `shutil.rmtree(...,
ignore_errors=True)` and a count of 1 regardless of what survived; without
force mode, a plain rmtree whose exception is caught, leaving the count 0. -/
def clean_history_folder (env : RmtreeEnv) (force_mode : Bool) : Nat :=
  if env.exists0 = false then 0
  else if force_mode then 1
  else
    match rmtreeCall env.rmtreeRaises env.rmtreeMsg with
    | .ok _ => 1
    | .error _ => 0

/-- One entry of the profile extensions directory: directory flag, base name,
and whether a plain `shutil.rmtree` on it raises. -/
structure ExtEntry where
  is_dir : Bool
  name : String
  rmtreeRaises : Bool
  rmtreeMsg : String
  deriving DecidableEq, Repr

/-- One event yielded by iterating `extensions_dir.iterdir()`. -/
inductive ExtEvent where
  | entry (e : ExtEntry)
  | enumFail (msg : String)
  deriving DecidableEq, Repr

/-- The loop of `_clean_profile_extensions`: count marker-named directories
removed; a per-entry rmtree failure is caught and skips only that entry; an
enumeration failure is caught and the count accumulated so far is returned. -/
def extLoop (force_mode : Bool) : List ExtEvent → Nat → Nat
  | [], acc => acc
  | .enumFail _ :: _, acc => acc
  | .entry e :: rest, acc =>
    if e.is_dir && containsSub "augment" (pyLower e.name) then
      if force_mode then extLoop force_mode rest (acc + 1)
      else
        match rmtreeCall e.rmtreeRaises e.rmtreeMsg with
        | .ok _ => extLoop force_mode rest (acc + 1)
        | .error _ => extLoop force_mode rest acc
    else extLoop force_mode rest acc

/-- `_clean_profile_extensions`: nothing to do when the directory does not
exist; otherwise run the extensions loop. -/
def clean_profile_extensions (exists0 : Bool) (events : List ExtEvent) (force_mode : Bool) :
    Nat :=
  if exists0 = false then 0 else extLoop force_mode events 0

/-- Environment for `_clean_global_storage`: existence of the directory and
the deletion environment of each target file, in `TARGET_FILES` order. -/
structure GlobalEnv where
  dirExists : Bool
  fileEnvs : List FileEnv

/-- `_clean_global_storage`: delete each target file under the directory and
count the successes. -/
def clean_global_storage (g : GlobalEnv) (force_mode : Bool) : Nat :=
  if g.dirExists = false then 0
  else g.fileEnvs.foldl (fun acc e => if (safe_delete_file e force_mode).1 then acc + 1 else acc) 0

/-- Environment for `_clean_profile_directory`: existence of the profile
directory, and — when the corresponding path is present and exists — the
environments of the extensions manifest and of the extensions directory. -/
structure ProfileEnv where
  profile_dir_ok : Bool
  extensions_json : Option ManifestEnv
  extensions_dir : Option (List ExtEvent)

/-- `_clean_profile_directory`: manifest sanitization plus extension-directory
sweep, summed. -/
def clean_profile_directory (p : ProfileEnv) (force_mode : Bool) : Nat :=
  if p.profile_dir_ok = false then 0
  else
    (match p.extensions_json with
     | some m => (clean_extensions_json m force_mode).ret
     | none => 0) +
    (match p.extensions_dir with
     | some evs => clean_profile_extensions true evs force_mode
     | none => 0)

/-! ### Orchestrator (`clean_ide_files`) -/

/-- Modelled from the spec: the IDE variant enumeration (`IDEType`, supplied
by the excluded path-provider collaborator).  The source names the variants
`VSCODE_INSIDERS` and `VSCODE` explicitly and treats every remaining variant
uniformly, so a single further constructor models the rest. -/
inductive IDEType where
  | vscode
  | vscode_insiders
  | other
  deriving DecidableEq, Repr

/-- The path dictionary returned by the path provider, reduced to the queries
`clean_ide_files` makes: presence of `state_db` (with the global-storage
environment reachable from its parent), existence of the sibling
`workspaceStorage` root and its iteration events, presence of `history`, and
presence of the profile paths. -/
structure PathsEnv where
  state_db : Option GlobalEnv
  workspaceExists : Bool
  workspaceEvents : List WsEvent
  history : Option RmtreeEnv
  profile : Option ProfileEnv

/-- Environment for one `clean_ide_files` call: `none` models the path
provider returning nothing for this IDE. -/
structure OrchEnv where
  paths : Option PathsEnv

/-- Python dict value assignment `d[k] = v` on an association list whose keys
are fixed in advance. -/
def setKey (d : List (String × Int)) (k : String) (v : Int) : List (String × Int) :=
  d.map (fun p => if p.1 = k then (k, v) else p)

/-- The `results` dictionary as initialized by `clean_ide_files`. -/
def initResults : List (String × Int) :=
  [("globalStorage", 0), ("workspaceStorage", 0), ("history", 0), ("profile", 0)]

/-- The history/profile block that `clean_ide_files` runs for the two
explicitly-named IDE variants. -/
def historyProfileUpdate (p : PathsEnv) (force_mode : Bool)
    (results : List (String × Int)) : List (String × Int) :=
  let results :=
    match p.history with
    | some h =>
      if h.exists0 then setKey results "history" (clean_history_folder h force_mode : Int)
      else results
    | none => results
  match p.profile with
  | some pr => setKey results "profile" (clean_profile_directory pr force_mode : Int)
  | none => results

/-- `clean_ide_files`: the four-zone results dictionary, filled in by the zone
cleaners; an absent path set short-circuits to all zeros. -/
def clean_ide_files (cfg : OrchEnv) (ide_type : IDEType) (force_mode : Bool) :
    List (String × Int) :=
  match cfg.paths with
  | none => initResults
  | some p =>
    let results := initResults
    let results :=
      match p.state_db with
      | some g => setKey results "globalStorage" (clean_global_storage g force_mode : Int)
      | none => results
    let results :=
      match p.state_db with
      | some _ =>
        if p.workspaceExists then
          setKey results "workspaceStorage"
            ((clean_workspace_storage p.workspaceExists p.workspaceEvents force_mode).ret : Int)
        else results
      | none => results
    let results :=
      if ide_type = IDEType.vscode_insiders then historyProfileUpdate p force_mode results
      else results
    let results :=
      if ide_type = IDEType.vscode then historyProfileUpdate p force_mode results
      else results
    results

/-! ### Concrete environments used by witnesses and counterexamples -/

/-- A file that does not exist. -/
def absentFileEnv : FileEnv :=
  { pathExists := false
    unlinkResult := fun _ => UnlinkResult.ok
    isWindows := false
    holders := []
    killRaises := fun _ => false
    cmdRaises := fun _ => false
    cmdRemoves := fun _ => false
    chmodRaises := none }

/-- A Unix file on which every unlink attempt fails with errno 13 and nothing
else goes wrong: the whole ladder fails and the path survives. -/
def unixLockedEnv : FileEnv :=
  { pathExists := true
    unlinkResult := fun _ => UnlinkResult.errno (some 13) "locked"
    isWindows := false
    holders := []
    killRaises := fun _ => false
    cmdRaises := fun _ => false
    cmdRemoves := fun _ => false
    chmodRaises := none }

/-- The same fully-locked file on Windows. -/
def winLockedEnv : FileEnv :=
  { unixLockedEnv with isWindows := true }

/-! ### Claim theorems -/

/-- Claim C1: for every path that does not exist, `safe_delete_file` returns
the silent "nothing to do" result — it performs no unlink attempt, emits no
warning or error, and invokes no escalation step (no sleep, retry, process
kill, forced command or chmod), on either force-mode setting. -/
theorem c1_nonexistent_path_silent_noop (env : FileEnv) (force_mode : Bool)
    (h : env.pathExists = false) :
    safe_delete_file env force_mode = (false, []) ∧
    (∀ a ∈ (safe_delete_file env force_mode).2, isEscalationStep a = false) ∧
    (∀ a ∈ (safe_delete_file env force_mode).2, isFailureReport a = false) := by
  refine ⟨?_, ?_, ?_⟩ <;> simp [safe_delete_file, h]

/-- Witness for C1 at a concrete absent file. -/
theorem c1_nonexistent_path_silent_noop_witness :
    safe_delete_file absentFileEnv true = (false, []) ∧
    (∀ a ∈ (safe_delete_file absentFileEnv true).2, isEscalationStep a = false) ∧
    (∀ a ∈ (safe_delete_file absentFileEnv true).2, isFailureReport a = false) :=
  c1_nonexistent_path_silent_noop absentFileEnv true rfl

/-- Claim C2 counterexample: on Unix, with force mode on and a file on which
the direct delete (attempt 0), the delayed retry (attempt 1) and the forced
chmod-plus-unlink (attempt 2) all fail so that the path survives the whole
ladder, the run performs no 5-unit sleep, no final direct delete attempt after
the forced step, and emits no restart hint — contradicting the claim that the
final retry happens on every platform. -/
theorem c2_final_retry_counterexample :
    (safe_delete_file unixLockedEnv true).1 = false ∧
    Action.unlinkAttempt 0 false ∈ (safe_delete_file unixLockedEnv true).2 ∧
    Action.unlinkAttempt 1 false ∈ (safe_delete_file unixLockedEnv true).2 ∧
    Action.unlinkAttempt 2 false ∈ (safe_delete_file unixLockedEnv true).2 ∧
    Action.sleep 5 ∉ (safe_delete_file unixLockedEnv true).2 ∧
    ((safe_delete_file unixLockedEnv true).2.all fun a =>
      match a with
      | Action.unlinkAttempt k _ => decide (k ≤ 2)
      | _ => true) = true ∧
    Action.logInfo LogMsg.restartHint ∉ (safe_delete_file unixLockedEnv true).2 := by
  decide

/-- Claim C2 (amended): the final retry is Windows-only.  On Windows, when the
direct delete, the delayed retry and every forced command have failed (with no
holder processes found) and the path still exists, the run sleeps 5 time
units, makes one last direct delete attempt, and on its failure reports the
last observed error together with the restart hint.  On Unix, under the same
failures, the forced path is a single chmod-plus-unlink whose failure is
reported immediately: no 5-unit sleep and no restart hint occur. -/
theorem c2_final_retry_windows_only (env : FileEnv) (n1 n2 : Option Nat)
    (m0 m1 m2 : String)
    (hex : env.pathExists = true)
    (hh : env.holders = [])
    (h0 : env.unlinkResult 0 = UnlinkResult.errno (some 13) m0)
    (h1 : env.unlinkResult 1 = UnlinkResult.errno n1 m1)
    (h2 : env.unlinkResult 2 = UnlinkResult.errno n2 m2)
    (hc0 : env.cmdRaises 0 = false) (hc1 : env.cmdRaises 1 = false)
    (hc2 : env.cmdRaises 2 = false)
    (hr0 : env.cmdRemoves 0 = false) (hr1 : env.cmdRemoves 1 = false)
    (hr2 : env.cmdRemoves 2 = false)
    (hch : env.chmodRaises = none) :
    (env.isWindows = true →
      (safe_delete_file env true).1 = false ∧
      Action.sleep 5 ∈ (safe_delete_file env true).2 ∧
      Action.unlinkAttempt 2 false ∈ (safe_delete_file env true).2 ∧
      Action.logError (LogMsg.finalErr m2) ∈ (safe_delete_file env true).2 ∧
      Action.logInfo LogMsg.restartHint ∈ (safe_delete_file env true).2) ∧
    (env.isWindows = false →
      (safe_delete_file env true).1 = false ∧
      Action.logError (LogMsg.forceDeleteFailedU m2) ∈ (safe_delete_file env true).2 ∧
      Action.sleep 5 ∉ (safe_delete_file env true).2 ∧
      Action.logInfo LogMsg.restartHint ∉ (safe_delete_file env true).2) := by
  constructor
  · intro hw
    simp [safe_delete_file, hex, h0, forceDeleteFile, h1, hw, hh, windowsForceDelete,
          windowsMethods, List.enum, List.enumFrom, wfdLoop, hc0, hc1, hc2, hr0, hr1, hr2, h2]
  · intro hw
    simp [safe_delete_file, hex, h0, forceDeleteFile, h1, hw, hh, unixForceDelete, hch, h2]

/-- Witness for the amended C2 on a concrete fully-locked Windows file and the
matching Unix instance. -/
theorem c2_final_retry_windows_only_witness :
    (Action.sleep 5 ∈ (safe_delete_file winLockedEnv true).2 ∧
     Action.logInfo LogMsg.restartHint ∈ (safe_delete_file winLockedEnv true).2) ∧
    (Action.sleep 5 ∉ (safe_delete_file unixLockedEnv true).2 ∧
     Action.logInfo LogMsg.restartHint ∉ (safe_delete_file unixLockedEnv true).2) := by
  have hw := c2_final_retry_windows_only winLockedEnv (some 13) (some 13) "locked" "locked"
    "locked" rfl rfl rfl rfl rfl rfl rfl rfl rfl rfl rfl rfl
  have hu := c2_final_retry_windows_only unixLockedEnv (some 13) (some 13) "locked" "locked"
    "locked" rfl rfl rfl rfl rfl rfl rfl rfl rfl rfl rfl rfl
  exact ⟨⟨(hw.1 rfl).2.1, (hw.1 rfl).2.2.2.2⟩, ⟨(hu.2 rfl).2.2.1, (hu.2 rfl).2.2.2⟩⟩

/-- Claim C4: on an existing path, an escalation step can appear in the trace
only when force mode is on and the direct unlink failed with an OSError whose
errno is 13 or 32; an OSError with any other errno, or any non-OSError
exception, aborts immediately with a logged error and no escalation; and with
errno 13/32 but force mode off, the run stops after the failed direct attempt,
reporting failure with the guidance that force mode is available. -/
theorem c4_escalation_gating (env : FileEnv) (force_mode : Bool)
    (h : env.pathExists = true) :
    (∀ a ∈ (safe_delete_file env force_mode).2, isEscalationStep a = true →
      force_mode = true ∧ ∃ n m, env.unlinkResult 0 = UnlinkResult.errno n m ∧
        (n = some 13 ∨ n = some 32)) ∧
    (∀ m, env.unlinkResult 0 = UnlinkResult.exn m →
      safe_delete_file env force_mode =
        (false, [Action.logInfo LogMsg.attemptDelete, Action.unlinkAttempt 0 false,
                 Action.logError (LogMsg.deleteFailedErr m)])) ∧
    (∀ n m, env.unlinkResult 0 = UnlinkResult.errno n m → ¬(n = some 13 ∨ n = some 32) →
      safe_delete_file env force_mode =
        (false, [Action.logInfo LogMsg.attemptDelete, Action.unlinkAttempt 0 false,
                 Action.logError (LogMsg.deleteFailedErr m)])) ∧
    (∀ n m, force_mode = false → env.unlinkResult 0 = UnlinkResult.errno n m →
      (n = some 13 ∨ n = some 32) →
      safe_delete_file env force_mode =
        (false, [Action.logInfo LogMsg.attemptDelete, Action.unlinkAttempt 0 false,
                 Action.logWarning LogMsg.deleteFailedWarn,
                 Action.logWarning (LogMsg.errDetail m),
                 Action.logInfo LogMsg.canTryForceMode])) := by
  refine ⟨?_, ?_, ?_, ?_⟩
  · intro a ha hesc
    match h0 : env.unlinkResult 0 with
    | UnlinkResult.ok =>
      simp [safe_delete_file, h, h0] at ha
      rcases ha with ha | ha | ha <;> simp [ha, isEscalationStep] at hesc
    | UnlinkResult.exn m =>
      simp [safe_delete_file, h, h0] at ha
      rcases ha with ha | ha | ha <;> simp [ha, isEscalationStep] at hesc
    | UnlinkResult.errno n m =>
      by_cases hn : n = some 13 ∨ n = some 32
      · cases force_mode with
        | true => exact ⟨rfl, n, m, rfl, hn⟩
        | false =>
          simp [safe_delete_file, h, h0, hn] at ha
          rcases ha with ha | ha | ha | ha | ha <;> simp [ha, isEscalationStep] at hesc
      · simp [safe_delete_file, h, h0, hn] at ha
        rcases ha with ha | ha | ha <;> simp [ha, isEscalationStep] at hesc
  · intro m h0
    simp [safe_delete_file, h, h0]
  · intro n m h0 hn
    simp [safe_delete_file, h, h0, hn]
  · intro n m hf h0 hn
    simp [safe_delete_file, h, h0, hn, hf]

/-- Witness for C4 at concrete inputs: a non-retryable errno (2, file not
found mid-race) and the guidance branch with force mode off. -/
theorem c4_escalation_gating_witness :
    (safe_delete_file
        { unixLockedEnv with unlinkResult := fun _ => UnlinkResult.errno (some 2) "gone" }
        true =
      (false, [Action.logInfo LogMsg.attemptDelete, Action.unlinkAttempt 0 false,
               Action.logError (LogMsg.deleteFailedErr "gone")])) ∧
    (safe_delete_file unixLockedEnv false =
      (false, [Action.logInfo LogMsg.attemptDelete, Action.unlinkAttempt 0 false,
               Action.logWarning LogMsg.deleteFailedWarn,
               Action.logWarning (LogMsg.errDetail "locked"),
               Action.logInfo LogMsg.canTryForceMode])) := by
  have h1 := c4_escalation_gating
    { unixLockedEnv with unlinkResult := fun _ => UnlinkResult.errno (some 2) "gone" } true rfl
  have h2 := c4_escalation_gating unixLockedEnv false rfl
  exact ⟨h1.2.2.1 (some 2) "gone" rfl (by decide),
         h2.2.2.2 (some 13) "locked" rfl rfl (Or.inl rfl)⟩

/-- The record loop of `_clean_extensions_json` computes the two order
preserving filters of the record list. -/
theorem partitionLoop_spec (items : List JsonVal) :
    partitionLoop items =
      (items.filter (fun i => !isMarkedItem i), items.filter (fun i => isMarkedItem i)) := by
  have h : ∀ (l : List JsonVal) (f r : List JsonVal),
      l.foldl
        (fun acc item =>
          if isMarkedItem item then (acc.1, acc.2 ++ [item]) else (acc.1 ++ [item], acc.2))
        (f, r) =
      (f ++ l.filter (fun i => !isMarkedItem i), r ++ l.filter (fun i => isMarkedItem i)) := by
    intro l
    induction l with
    | nil => intro f r; simp
    | cons x xs ih =>
      intro f r
      by_cases hx : isMarkedItem x <;> simp [hx, ih]
  simpa [partitionLoop] using h items [] []

/-- A concrete benign manifest: no record mentions the marker. -/
def benignManifest : List JsonVal :=
  [JsonVal.str "ms-python.python",
   JsonVal.obj [("identifier", JsonVal.obj [("id", JsonVal.str "vscodevim.vim")]),
                ("version", JsonVal.str "1.27.2")]]

/-- The five-record manifest of the order-preservation property: records B and
D carry the marker, A, C and E do not. -/
def orderManifest : List JsonVal :=
  [JsonVal.str "pubA.extA",
   JsonVal.str "Augment.vscode-augment",
   JsonVal.str "pubC.extC",
   JsonVal.obj [("identifier", JsonVal.obj [("id", JsonVal.str "augmentcode.augment")])],
   JsonVal.str "pubE.extE"]

/-- Claim C3: on a manifest that parses as a list in which no record is
classified "remove", sanitize does not write the manifest, deletes the
speculatively created backup (no backup remains for the run), and reports
zero. -/
theorem c3_no_removal_no_write_no_backup (env : ManifestEnv) (items : List JsonVal)
    (force_mode : Bool)
    (hb : env.backupSucceeds = true)
    (hc : env.content = some (JsonVal.arr items))
    (hnone : items.all (fun i => !isMarkedItem i) = true) :
    clean_extensions_json env force_mode =
      { ret := 0, written := none, backupRemains := false, readManifest := true } := by
  have hfil : items.filter (fun i => isMarkedItem i) = [] := by
    rw [List.filter_eq_nil_iff]
    intro a ha
    have := List.all_eq_true.mp hnone a ha
    simpa using this
  simp [clean_extensions_json, hb, hc, partitionLoop_spec, hfil]

/-- Witness for C3 on a concrete benign manifest. -/
theorem c3_no_removal_no_write_no_backup_witness :
    clean_extensions_json
        { backupSucceeds := true, content := some (JsonVal.arr benignManifest) } false =
      { ret := 0, written := none, backupRemains := false, readManifest := true } :=
  c3_no_removal_no_write_no_backup
    { backupSucceeds := true, content := some (JsonVal.arr benignManifest) }
    benignManifest false rfl rfl (by decide)

/-- Claim C5: whenever sanitize rewrites the manifest, the written list is
exactly the original list with the marked records removed — the unmarked
records, in their original relative order (a sublist of the original). -/
theorem c5_kept_records_keep_order (env : ManifestEnv) (items : List JsonVal)
    (force_mode : Bool)
    (hb : env.backupSucceeds = true)
    (hc : env.content = some (JsonVal.arr items))
    (hsome : items.any (fun i => isMarkedItem i) = true) :
    (clean_extensions_json env force_mode).written =
      some (items.filter (fun i => !isMarkedItem i)) ∧
    (items.filter (fun i => !isMarkedItem i)).Sublist items := by
  have hfil : (items.filter (fun i => isMarkedItem i)).isEmpty = false := by
    rcases List.any_eq_true.mp hsome with ⟨a, ha, hma⟩
    have : a ∈ items.filter (fun i => isMarkedItem i) := List.mem_filter.mpr ⟨ha, hma⟩
    rcases hq : items.filter (fun i => isMarkedItem i) with _ | _
    · rw [hq] at this; cases this
    · rfl
  refine ⟨?_, List.filter_sublist items⟩
  simp [clean_extensions_json, hb, hc, partitionLoop_spec, hfil]

/-- Witness for C5 on the concrete [A, B(marked), C, D(marked), E] manifest:
the written output is exactly [A, C, E]. -/
theorem c5_kept_records_keep_order_witness :
    (clean_extensions_json
        { backupSucceeds := true, content := some (JsonVal.arr orderManifest) } false).written =
      some [JsonVal.str "pubA.extA", JsonVal.str "pubC.extC", JsonVal.str "pubE.extE"] := by
  have h := c5_kept_records_keep_order
    { backupSucceeds := true, content := some (JsonVal.arr orderManifest) }
    orderManifest false rfl rfl (by decide)
  rw [h.1]
  rfl

/-- Claim C7: when backup creation fails, sanitize aborts before reading,
filtering or writing: the manifest is not written, nothing is read, no backup
exists, and zero is reported. -/
theorem c7_backup_failure_aborts (env : ManifestEnv) (force_mode : Bool)
    (hb : env.backupSucceeds = false) :
    clean_extensions_json env force_mode =
      { ret := 0, written := none, backupRemains := false, readManifest := false } := by
  simp [clean_extensions_json, hb]

/-- Witness for C7 at a concrete manifest whose backup collaborator fails. -/
theorem c7_backup_failure_aborts_witness :
    clean_extensions_json
        { backupSucceeds := false, content := some (JsonVal.arr orderManifest) } false =
      { ret := 0, written := none, backupRemains := false, readManifest := false } :=
  c7_backup_failure_aborts
    { backupSucceeds := false, content := some (JsonVal.arr orderManifest) } false rfl

/-- Claim C9: on a manifest that fails to parse, or parses to a non-list,
sanitize leaves the manifest unwritten and reports zero, but the speculatively
created backup is not deleted and remains on disk — unlike the
zero-marked-records case. -/
theorem c9_bad_parse_leaves_backup (env : ManifestEnv) (force_mode : Bool)
    (hb : env.backupSucceeds = true)
    (h : env.content = none ∨
         ∃ v, env.content = some v ∧ ∀ items, v ≠ JsonVal.arr items) :
    (clean_extensions_json env force_mode).written = none ∧
    (clean_extensions_json env force_mode).ret = 0 ∧
    (clean_extensions_json env force_mode).backupRemains = true := by
  rcases h with h | ⟨v, hv, hvnot⟩
  · refine ⟨?_, ?_, ?_⟩ <;> simp [clean_extensions_json, hb, h]
  · match v, hvnot with
    | JsonVal.null, _ => refine ⟨?_, ?_, ?_⟩ <;> simp [clean_extensions_json, hb, hv]
    | JsonVal.bool b, _ => refine ⟨?_, ?_, ?_⟩ <;> simp [clean_extensions_json, hb, hv]
    | JsonVal.num n, _ => refine ⟨?_, ?_, ?_⟩ <;> simp [clean_extensions_json, hb, hv]
    | JsonVal.str s, _ => refine ⟨?_, ?_, ?_⟩ <;> simp [clean_extensions_json, hb, hv]
    | JsonVal.obj fs, _ => refine ⟨?_, ?_, ?_⟩ <;> simp [clean_extensions_json, hb, hv]
    | JsonVal.arr items, hvnot => exact absurd rfl (hvnot items)

/-- Witness for C9 at a concrete parse failure and a concrete non-list
manifest. -/
theorem c9_bad_parse_leaves_backup_witness :
    ((clean_extensions_json { backupSucceeds := true, content := none } false).backupRemains =
      true) ∧
    ((clean_extensions_json
        { backupSucceeds := true, content := some (JsonVal.obj [("x", JsonVal.null)]) }
        false).backupRemains = true) := by
  have h1 := c9_bad_parse_leaves_backup { backupSucceeds := true, content := none } false rfl
    (Or.inl rfl)
  have h2 := c9_bad_parse_leaves_backup
    { backupSucceeds := true, content := some (JsonVal.obj [("x", JsonVal.null)]) } false rfl
    (Or.inr ⟨JsonVal.obj [("x", JsonVal.null)], rfl, fun items h => by cases h⟩)
  exact ⟨h1.2.2, h2.2.2⟩

/-- Target-file deletions performed while processing a list of workspace
events (enumeration failures contribute nothing). -/
def sumDeleted (force_mode : Bool) (events : List WsEvent) : Nat :=
  (events.map (fun e =>
    match e with
    | WsEvent.dirEntry d => processDir d force_mode
    | WsEvent.enumFail _ => 0)).sum

/-- The workspace loop on a prefix of plain entries followed by an enumeration
failure: the returned count is 0, while the deletions of the prefix have
already happened. -/
theorem wsLoop_enumFail (force_mode : Bool) (msg : String) (rest : List WsEvent) :
    ∀ (pre : List WsEvent), (∀ e ∈ pre, ∀ m, e ≠ WsEvent.enumFail m) →
    ∀ total processed,
      (wsLoop force_mode (pre ++ WsEvent.enumFail msg :: rest) total processed).ret = 0 ∧
      (wsLoop force_mode (pre ++ WsEvent.enumFail msg :: rest) total
          processed).actuallyDeleted = total + sumDeleted force_mode pre := by
  intro pre
  induction pre with
  | nil => intro _ total processed; simp [wsLoop, sumDeleted]
  | cons e es ih =>
    intro hpre total processed
    match e with
    | WsEvent.enumFail m => exact absurd rfl (hpre _ (by simp) m)
    | WsEvent.dirEntry d =>
      have hes : ∀ x ∈ es, ∀ m, x ≠ WsEvent.enumFail m := fun x hx => hpre x (by simp [hx])
      have := ih hes (total + processDir d force_mode)
        (if 0 < processDir d force_mode then processed + 1 else processed)
      simpa [wsLoop, sumDeleted, Nat.add_assoc] using this

/-- Claim C6: when enumerating the workspace-storage root fails after some
child directories were already swept, the whole call reports 0 — not the
partial aggregate — even though the deletions performed before the failure
have already happened on disk. -/
theorem c6_enum_failure_reports_zero (pre rest : List WsEvent) (msg : String)
    (force_mode : Bool)
    (hpre : ∀ e ∈ pre, ∀ m, e ≠ WsEvent.enumFail m) :
    (clean_workspace_storage true (pre ++ WsEvent.enumFail msg :: rest) force_mode).ret = 0 ∧
    (clean_workspace_storage true (pre ++ WsEvent.enumFail msg :: rest)
        force_mode).actuallyDeleted = sumDeleted force_mode pre := by
  have h := wsLoop_enumFail force_mode msg rest pre hpre 0 0
  simpa [clean_workspace_storage] using h

/-- A workspace directory whose two target files both delete successfully. -/
def okWorkspace : WsDir :=
  { is_dir := true
    fileEnvs := [{ absentFileEnv with pathExists := true },
                 { absentFileEnv with pathExists := true }] }

/-- Witness for C6: one workspace is swept (2 files actually deleted), then
enumeration fails; the call reports 0. -/
theorem c6_enum_failure_reports_zero_witness :
    (clean_workspace_storage true
        [WsEvent.dirEntry okWorkspace, WsEvent.enumFail "permission denied"] true).ret = 0 ∧
    (clean_workspace_storage true
        [WsEvent.dirEntry okWorkspace, WsEvent.enumFail "permission denied"]
        true).actuallyDeleted = 2 := by
  have h := c6_enum_failure_reports_zero [WsEvent.dirEntry okWorkspace] []
    "permission denied" true (by intro e he m; simp at he; simp [he])
  simp only [List.singleton_append] at h
  refine ⟨h.1, ?_⟩
  rw [h.2]
  decide

/-- Claim C8: with escalation (force mode) allowed, the recursive tree removal
counts the removal as done unconditionally — also when the ignore-errors sweep
left entries behind; with escalation disallowed, a removal failure does not
raise: the history cleaner returns 0, and in the extensions sweep a raising
entry merely contributes nothing while the call still returns. -/
theorem c8_removetree_force_vs_plain (env : RmtreeEnv) (h : env.exists0 = true) :
    (∀ residue : Bool,
      clean_history_folder { env with forceLeavesResidue := residue } true = 1) ∧
    (env.rmtreeRaises = true → clean_history_folder env false = 0) ∧
    (∀ msg : String,
      clean_profile_extensions true
        [ExtEvent.entry
          { is_dir := true, name := "augment.vscode-augment", rmtreeRaises := true,
            rmtreeMsg := msg }] false = 0) := by
  refine ⟨?_, ?_, ?_⟩
  · intro residue
    simp [clean_history_folder, h]
  · intro hr
    simp [clean_history_folder, h, rmtreeCall, hr]
  · intro msg
    have hm : containsSub "augment" (pyLower "augment.vscode-augment") = true := rfl
    simp [clean_profile_extensions, extLoop, hm, rmtreeCall]

/-- Witness for C8 at a concrete history folder that cannot be removed. -/
theorem c8_removetree_force_vs_plain_witness :
    (clean_history_folder
        { exists0 := true, rmtreeRaises := true, rmtreeMsg := "busy",
          forceLeavesResidue := true } true = 1) ∧
    (clean_history_folder
        { exists0 := true, rmtreeRaises := true, rmtreeMsg := "busy",
          forceLeavesResidue := false } false = 0) ∧
    (clean_profile_extensions true
        [ExtEvent.entry
          { is_dir := true, name := "augment.vscode-augment", rmtreeRaises := true,
            rmtreeMsg := "busy" }] false = 0) := by
  have h := c8_removetree_force_vs_plain
    { exists0 := true, rmtreeRaises := true, rmtreeMsg := "busy",
      forceLeavesResidue := false } rfl
  exact ⟨h.1 true, h.2.1 rfl, h.2.2 "busy"⟩

/-- Well-formedness of the results dictionary: exactly the four zone keys, in
their initialization order, with non-negative counts. -/
def goodDict (d : List (String × Int)) : Prop :=
  d.map Prod.fst = ["globalStorage", "workspaceStorage", "history", "profile"] ∧
  ∀ p ∈ d, 0 ≤ p.2

/-- The initial results dictionary is well-formed. -/
theorem goodDict_initResults : goodDict initResults := by
  constructor
  · rfl
  · intro p hp
    simp [initResults] at hp
    rcases hp with h | h | h | h <;> simp [h]

/-- A value assignment never changes the key list. -/
theorem setKey_keys (k : String) (v : Int) :
    ∀ d : List (String × Int), (setKey d k v).map Prod.fst = d.map Prod.fst
  | [] => rfl
  | p :: ps => by
    by_cases hpk : p.1 = k <;>
      simp [setKey, hpk] <;>
      simpa [setKey] using setKey_keys k v ps

/-- Assigning a natural count keeps the dictionary well-formed. -/
theorem goodDict_setKey (d : List (String × Int)) (k : String) (n : Nat)
    (hd : goodDict d) : goodDict (setKey d k (n : Int)) := by
  constructor
  · rw [setKey_keys]; exact hd.1
  · intro p hp
    simp only [setKey, List.mem_map] at hp
    obtain ⟨q, hq, hpq⟩ := hp
    by_cases hqk : q.1 = k
    · simp only [hqk, if_pos rfl] at hpq
      rw [← hpq]
      exact Int.natCast_nonneg n
    · simp only [if_neg hqk] at hpq
      rw [← hpq]
      exact hd.2 q hq

/-- The history/profile block keeps the dictionary well-formed. -/
theorem goodDict_historyProfileUpdate (p : PathsEnv) (force_mode : Bool)
    (d : List (String × Int)) (hd : goodDict d) :
    goodDict (historyProfileUpdate p force_mode d) := by
  unfold historyProfileUpdate
  have h1 : goodDict
      (match p.history with
       | some h =>
         if h.exists0 then setKey d "history" (clean_history_folder h force_mode : Int)
         else d
       | none => d) := by
    match p.history with
    | some h =>
      by_cases he : h.exists0 = true
      · simpa [he] using goodDict_setKey d "history" (clean_history_folder h force_mode) hd
      · simpa [he] using hd
    | none => exact hd
  match p.profile with
  | some pr => exact goodDict_setKey _ "profile" (clean_profile_directory pr force_mode) h1
  | none => exact h1

/-- `clean_ide_files` always yields a well-formed results dictionary. -/
theorem goodDict_clean_ide_files (cfg : OrchEnv) (ide_type : IDEType) (force_mode : Bool) :
    goodDict (clean_ide_files cfg ide_type force_mode) := by
  rcases hp : cfg.paths with _ | p
  · simpa [clean_ide_files, hp] using goodDict_initResults
  · rcases hsd : p.state_db with _ | g <;>
      by_cases hw : p.workspaceExists = true <;>
      by_cases hi : ide_type = IDEType.vscode_insiders <;>
      by_cases hv : ide_type = IDEType.vscode <;>
      simp [clean_ide_files, hp, hsd, hw, hi, hv] <;>
      repeat first
        | exact goodDict_initResults
        | apply goodDict_historyProfileUpdate
        | apply goodDict_setKey

/-- Claim C10: for every IDE type and both force-mode values, `clean_ide_files`
returns a dictionary with exactly the keys globalStorage, workspaceStorage,
history and profile, each bound to a non-negative count; when the path
provider yields no paths, every count is zero. -/
theorem c10_results_shape (cfg : OrchEnv) (ide_type : IDEType) (force_mode : Bool) :
    (clean_ide_files cfg ide_type force_mode).map Prod.fst =
      ["globalStorage", "workspaceStorage", "history", "profile"] ∧
    (∀ p ∈ clean_ide_files cfg ide_type force_mode, 0 ≤ p.2) ∧
    (cfg.paths = none →
      clean_ide_files cfg ide_type force_mode =
        [("globalStorage", 0), ("workspaceStorage", 0), ("history", 0), ("profile", 0)]) := by
  have h := goodDict_clean_ide_files cfg ide_type force_mode
  exact ⟨h.1, h.2, fun hp => by simp [clean_ide_files, hp, initResults]⟩

/-- Witness for C10 at a concrete no-paths environment. -/
theorem c10_results_shape_witness :
    ((clean_ide_files ⟨none⟩ IDEType.other false).map Prod.fst =
      ["globalStorage", "workspaceStorage", "history", "profile"]) ∧
    (∀ p ∈ clean_ide_files ⟨none⟩ IDEType.other false, 0 ≤ p.2) ∧
    (clean_ide_files ⟨none⟩ IDEType.other false =
      [("globalStorage", 0), ("workspaceStorage", 0), ("history", 0), ("profile", 0)]) := by
  have h := c10_results_shape ⟨none⟩ IDEType.other false
  exact ⟨h.1, h.2.1, h.2.2 rfl⟩

end FileCleaner
